import Mathlib

/-!
Verification of the terait-project backend (an Express server over the
Firebase Realtime Database with JSON Web Token authentication) against
its natural-language specification.

The repository ships two variants of the API server:
* the file whose original name is unknown (called the current variant
  below), which indexes into the results of its string splits
  (`authorization.split(' ')[1]`, `toISOString().split('T')[0]`,
  `Object.keys(userData)[0]`), and
* `terait-backend/api/index.js`, an older revision of the same server
  that omits those indexing steps, so the raw arrays flow onward.

Both variants are embedded below.  The Realtime Database is modelled as
a finite map from full leaf paths to primitive JSON values; `set`,
`update`, `remove`, `push` and the `orderByChild(..).equalTo(..)` query
follow the Firebase SDK semantics the code relies on.  JSON Web Tokens
are modelled symbolically: a signed token is the string
`uid|email|role|exp|mac`, where the mac is a tag nobody can produce
without the secret; `jwt.verify` re-derives the tag and checks expiry,
and it rejects any input that is not a string, as the jsonwebtoken
library does.  Clocks are abstract ticks (seconds); the ISO rendering of
a tick keeps the shape `date ++ "T" ++ time` so that the code's
`toISOString().split('T')` behaves as in JavaScript.
-/

namespace Terait

/-- JSON values, as carried in request bodies and produced by `res.json`. -/
inductive JVal where
  | str : String → JVal
  | num : Int → JVal
  | bool : Bool → JVal
  | arr : List JVal → JVal
  | obj : List (String × JVal) → JVal

/-- JavaScript truthiness of a possibly absent body field: `undefined`,
`null` (absent here), the empty string, `0` and `false` are falsy, so
`if (!x)` fires exactly when this is `false`. -/
def jsTruthy : Option JVal → Bool
  | none => false
  | some (.str s) => s != ""
  | some (.num n) => n != 0
  | some (.bool b) => b
  | some (.arr _) => true
  | some (.obj _) => true

/-- JavaScript `String.prototype.split` with a single-character
separator, the only form the code uses. -/
def splitChar (c : Char) (s : String) : List String :=
  (s.toList.splitOn c).map List.asString

/-- A full path into the Realtime Database, one segment per level. -/
abbrev Path := List String

/-- The Realtime Database, modelled as a finite map from full leaf paths
to primitive values (an association list; reads take the first matching
entry). -/
abbrev DB := List (Path × JVal)

/-- The primitive stored at exactly path `p`, if any. -/
def dbGet (db : DB) (p : Path) : Option JVal :=
  (db.find? (fun e => e.1 == p)).map (fun e => e.2)

/-- `snapshot.exists()` for the subtree rooted at `p`. -/
def pathExists (db : DB) (p : Path) : Bool :=
  db.any (fun e => p.isPrefixOf e.1)

/-- Drop every leaf lying in the subtree rooted at `p`. -/
def removeAt (db : DB) (p : Path) : DB :=
  db.filter (fun e => !(p.isPrefixOf e.1))

/-- The keys of the direct children of `p`, in store order. -/
def childKeys (db : DB) (p : Path) : List String :=
  (db.filterMap (fun e => if p.isPrefixOf e.1 then e.1.get? p.length else none)).dedup

mutual

/-- Flatten a JSON value into leaf entries with paths relative to where
it is stored.  Firebase stores arrays as objects keyed by the decimal
indices. -/
def flattenRel : JVal → List (Path × JVal)
  | .obj fs => flattenRelFields fs
  | .arr xs => flattenRelElems 0 xs
  | .str s => [([], .str s)]
  | .num n => [([], .num n)]
  | .bool b => [([], .bool b)]

/-- Flatten the fields of an object. -/
def flattenRelFields : List (String × JVal) → List (Path × JVal)
  | [] => []
  | (k, v) :: rest =>
    (flattenRel v).map (fun e => (k :: e.1, e.2)) ++ flattenRelFields rest

/-- Flatten the elements of an array, keys counting from `i`. -/
def flattenRelElems (i : Nat) : List JVal → List (Path × JVal)
  | [] => []
  | v :: rest =>
    (flattenRel v).map (fun e => (toString i :: e.1, e.2)) ++ flattenRelElems (i + 1) rest

end

/-- `db.ref(p).set(v)`: replace the subtree at `p` by `v`. -/
def setAt (db : DB) (p : Path) (v : JVal) : DB :=
  removeAt db p ++ (flattenRel v).map (fun e => (p ++ e.1, e.2))

/-- The subtree stored below `p`: every leaf under `p`, with its path
relative to `p`, in store order. -/
def subtreeEntries (db : DB) (p : Path) : List (Path × JVal) :=
  (db.filter (fun e => p.isPrefixOf e.1)).map (fun e => (e.1.drop p.length, e.2))

/-- `db.ref(p).update(o)`: each top-level key of `o` replaces the child
at `p/key`; children not named in `o` are untouched. -/
def updateAt (db : DB) (p : Path) (o : List (String × JVal)) : DB :=
  o.foldl (fun acc kv => setAt acc (p ++ [kv.1]) kv.2) db

/-- Does the leaf hold exactly the string `v`?  JavaScript strict
equality between a stored value and a supplied string: `false` when the
stored value is absent or not a string. -/
def leafEqStr (l : Option JVal) (v : String) : Bool :=
  match l with
  | some (.str s) => s == v
  | _ => false

/-- `ref.orderByChild(child).equalTo(v)` for a string `v`: the keys of
the children of `p` whose `child` leaf equals `v`, in store order. -/
def queryEqualTo (db : DB) (p : Path) (child : String) (v : String) : List String :=
  (childKeys db p).filter (fun k => leafEqStr (dbGet db (p ++ [k, child])) v)

/-- The claims carried by the tokens this server signs.  `role` is
absent from the payload when the signing call passed `undefined`. -/
structure Claims where
  userId : String
  email : String
  role : Option String
deriving Repr, DecidableEq

/-- Serialise the role claim into the token (injectively). -/
def encodeRole : Option String → String
  | some r => "s" ++ r
  | none => "u"

/-- Parse the role claim back out of a token, character-wise. -/
def decodeRoleL : List Char → Option (Option String)
  | ['u'] => some none
  | 's' :: rest => some (some rest.asString)
  | _ => none

/-- Parse the role claim back out of a token. -/
def decodeRole (s : String) : Option (Option String) :=
  decodeRoleL s.toList

/-- One decimal digit as a character. -/
def digitChar (d : Nat) : Char :=
  if d = 0 then '0' else if d = 1 then '1' else if d = 2 then '2'
  else if d = 3 then '3' else if d = 4 then '4' else if d = 5 then '5'
  else if d = 6 then '6' else if d = 7 then '7' else if d = 8 then '8' else '9'

/-- One character back to a decimal digit. -/
def charDigit (c : Char) : Option Nat :=
  if c = '0' then some 0 else if c = '1' then some 1 else if c = '2' then some 2
  else if c = '3' then some 3 else if c = '4' then some 4 else if c = '5' then some 5
  else if c = '6' then some 6 else if c = '7' then some 7 else if c = '8' then some 8
  else if c = '9' then some 9 else none

/-- The little-endian decimal digits of `n`; the fuel argument makes the
recursion structural. -/
def digitsFuel : Nat → Nat → List Nat
  | _, 0 => []
  | 0, _ + 1 => []
  | f + 1, n + 1 => (n + 1) % 10 :: digitsFuel f ((n + 1) / 10)

/-- Render a natural number into the token (digits only). -/
def natCode (n : Nat) : String := ((digitsFuel n n).map digitChar).asString

/-- The calendar-date half of the modelled ISO timestamp. -/
def isoDatePart (t : Nat) : String := "d" ++ natCode (t / 86400)

/-- The time-of-day half of the modelled ISO timestamp. -/
def isoTimePart (t : Nat) : String := "h" ++ natCode (t % 86400)

/-- Modelled `Date.toISOString`: a date part and a time part joined by
`T`; neither part contains `T`, matching the real format. -/
def isoString (t : Nat) : String := isoDatePart t ++ "T" ++ isoTimePart t

/-- Store-generated push keys, modelled by a counter threaded through
the handlers. -/
def pushKey (n : Nat) : String := "-K" ++ natCode n

/-- The value of a little-endian digit list. -/
def digitsVal : List Nat → Nat
  | [] => 0
  | d :: rest => d + 10 * digitsVal rest

/-- Parse a digit character list back to digits, failing on any other
character. -/
def charDigitList : List Char → Option (List Nat)
  | [] => some []
  | c :: rest =>
    match charDigit c, charDigitList rest with
    | some d, some ds => some (d :: ds)
    | _, _ => none

/-- Parse a natural number out of the token. -/
def natDecode (s : String) : Option Nat :=
  (charDigitList s.toList).map digitsVal

/-- The authentication tag of a payload under a secret (symbolic MAC). -/
def macTag (secret uid email roleEnc : String) (e : Nat) : String :=
  "mac<" ++ secret ++ ";" ++ uid ++ ";" ++ email ++ ";" ++ roleEnc ++ ";" ++ natCode e ++ ">"

/-- `jwt.sign(payload, secret, expiresIn 24h)` at time `iat`: the
serialised token `uid|email|role|exp|mac`, with `exp = iat + 86400`. -/
def signToken (secret : String) (c : Claims) (iat : Nat) : String :=
  c.userId ++ "|" ++ c.email ++ "|" ++ encodeRole c.role ++ "|" ++ natCode (iat + 86400)
    ++ "|" ++ macTag secret c.userId c.email (encodeRole c.role) (iat + 86400)

/-- A string that serialises into a token without clashing with the
token syntax: it holds neither the field separator of the symbolic
token format nor a space (the header separator). -/
def tokenSafe (s : String) : Prop :=
  '|' ∉ s.toList ∧ ' ' ∉ s.toList

instance (s : String) : Decidable (tokenSafe s) := by
  unfold tokenSafe; infer_instance

/-- `tokenSafe` lifted to the optional role claim. -/
def roleSafe : Option String → Prop
  | none => True
  | some r => tokenSafe r

instance (r : Option String) : Decidable (roleSafe r) := by
  cases r <;> simp only [roleSafe] <;> infer_instance

/-- What reaches `jwt.verify`: a string in the current variant, the whole
`split(' ')` array in the older one. -/
inductive JwtInput where
  | str : String → JwtInput
  | strList : List String → JwtInput
deriving Repr, DecidableEq

/-- Split a serialised token into its five fields, if it has that shape. -/
def parseToken (s : String) : Option (String × String × String × String × String) :=
  match splitChar '|' s with
  | [uid, email, re, es, tag] => some (uid, email, re, es, tag)
  | _ => none

/-- The verification core: recompute the tag from the parsed fields and
the secret, and check the expiry (`now < exp`). -/
def checkClaims (secret : String) (now : Nat)
    (uid email re es tag : String) : Option Claims :=
  match natDecode es, decodeRole re with
  | some e, some role =>
    if tag == macTag secret uid email re e && decide (now < e) then
      some ⟨uid, email, role⟩
    else none
  | _, _ => none

/-- `jwt.verify(tok, secret)` at time `now`: reject non-string input
(the jsonwebtoken library raises `jwt must be a string`), otherwise
parse the five fields, recompute the tag and check the expiry. -/
def jwtVerify (secret : String) (now : Nat) : JwtInput → Option Claims
  | .strList _ => none
  | .str s =>
    match parseToken s with
    | some (uid, email, re, es, tag) => checkClaims secret now uid email re es tag
    | none => none

/-- An HTTP response: status code and JSON body. -/
structure ApiResponse where
  status : Nat
  body : JVal

/-- Outcome of the token middleware: a 401 with an error message, or
proceed into the handler with `req.user` set to the decoded claims. -/
inductive AuthOutcome where
  | reject : String → AuthOutcome
  | proceed : Claims → AuthOutcome
deriving Repr, DecidableEq

/-- The current variant's `verifyToken` middleware:
`req.headers.authorization?.split(' ')[1]` is the token; a missing or
falsy token gives 401 `No token provided`, a failing `jwt.verify` gives
401 `Invalid token`, and otherwise the request proceeds. -/
def verifyToken (secret : String) (now : Nat) (authHeader : Option String) : AuthOutcome :=
  match authHeader.bind (fun h => (splitChar ' ' h).get? 1) with
  | none => .reject "No token provided"
  | some t =>
    if t == "" then .reject "No token provided"
    else
      match jwtVerify secret now (.str t) with
      | some c => .proceed c
      | none => .reject "Invalid token"

/-- The older variant's middleware (`terait-backend/api/index.js`): the
`[1]` indexing is missing, so the whole `split(' ')` array is the
token.  A JavaScript array is always truthy, and `jwt.verify` then
rejects whatever the header held, because its argument is not a
string. -/
def verifyTokenOld (secret : String) (now : Nat) (authHeader : Option String) : AuthOutcome :=
  match authHeader with
  | none => .reject "No token provided"
  | some h =>
    match jwtVerify secret now (.strList (splitChar ' ' h)) with
    | some c => .proceed c
    | none => .reject "Invalid token"

/-- Run a protected route of the current variant: the middleware and
then the handler on the decoded claims; `.error m` is the middleware's
401 body message. -/
def runProtected (secret : String) (now : Nat) (authHeader : Option String)
    (handler : Claims → α) : Except String α :=
  match verifyToken secret now authHeader with
  | .reject m => .error m
  | .proceed c => .ok (handler c)

/-- Truthiness of an optional string field, as `if (!x)` sees it. -/
def strTruthy : Option String → Bool
  | none => false
  | some s => s != ""

/-- JSON serialisation drops object entries whose value is `undefined`;
an absent leaf therefore contributes no entry to the response. -/
def optField (k : String) : Option JVal → List (String × JVal)
  | none => []
  | some v => [(k, v)]

/-- A stored leaf read back as the string claim it contributes to a
token payload.  The user records this server writes only ever hold
strings there. -/
def leafStr : Option JVal → Option String
  | some (.str s) => some s
  | _ => none

/-- The body of POST /api/login; the frontend sends string fields. -/
structure LoginBody where
  email : Option String
  password : Option String

/-- The body of POST /api/register. -/
structure RegisterBody where
  email : Option String
  password : Option String
  name : Option String
  role : Option String

/-- POST /api/login, current variant: presence check, query the users
by email, take `Object.keys(userData)[0]`, strict password comparison,
then sign a token and answer with the user's fields.  (For a key
produced by the query the stored email leaf is exactly the requested
string.) -/
def login (secret : String) (now : Nat) (db : DB) (b : LoginBody) : ApiResponse :=
  if !(strTruthy b.email && strTruthy b.password) then
    ⟨400, .obj [("error", .str "Email and password required")]⟩
  else
    let email := b.email.getD ""
    let password := b.password.getD ""
    match queryEqualTo db ["users"] "email" email with
    | [] => ⟨401, .obj [("error", .str "Invalid credentials")]⟩
    | k :: _ =>
      if !(leafEqStr (dbGet db ["users", k, "password"]) password) then
        ⟨401, .obj [("error", .str "Invalid credentials")]⟩
      else
        ⟨200, .obj [("success", .bool true),
          ("token", .str (signToken secret
            ⟨k, email, leafStr (dbGet db ["users", k, "role"])⟩ now)),
          ("user", .obj ([("id", .str k)]
            ++ optField "email" (dbGet db ["users", k, "email"])
            ++ optField "name" (dbGet db ["users", k, "name"])
            ++ optField "role" (dbGet db ["users", k, "role"])))]⟩

/-- How the older login renders the whole key array into the symbolic
token's `userId` claim (in the real payload JSON it is an array). -/
def keyArrClaim (ks : List String) : String :=
  "arr(" ++ String.intercalate "," ks ++ ")"

/-- POST /api/login, older variant (`terait-backend/api/index.js`):
`userId` is the whole `Object.keys(userData)` array.  Used as a
property key it coerces to the comma-joined string, so a singleton
array finds its sole user; when the join is not itself a key, `user` is
`undefined` and reading `user.password` throws, caught as a 500.  The
response's `user.id` and the signed `userId` claim carry the array. -/
def loginOld (secret : String) (now : Nat) (db : DB) (b : LoginBody) : ApiResponse :=
  if !(strTruthy b.email && strTruthy b.password) then
    ⟨400, .obj [("error", .str "Email and password required")]⟩
  else
    let email := b.email.getD ""
    let password := b.password.getD ""
    match queryEqualTo db ["users"] "email" email with
    | [] => ⟨401, .obj [("error", .str "Invalid credentials")]⟩
    | k0 :: krest =>
      let ks := k0 :: krest
      let k := String.intercalate "," ks
      if !(ks.contains k) then
        ⟨500, .obj [("error", .str "Login failed")]⟩
      else if !(leafEqStr (dbGet db ["users", k, "password"]) password) then
        ⟨401, .obj [("error", .str "Invalid credentials")]⟩
      else
        ⟨200, .obj [("success", .bool true),
          ("token", .str (signToken secret
            ⟨keyArrClaim ks, email, leafStr (dbGet db ["users", k, "role"])⟩ now)),
          ("user", .obj ([("id", .arr (ks.map .str))]
            ++ optField "email" (dbGet db ["users", k, "email"])
            ++ optField "name" (dbGet db ["users", k, "name"])
            ++ optField "role" (dbGet db ["users", k, "role"])))]⟩

/-- POST /api/register (identical in both server variants): presence
check, duplicate check through the email query, then push a user record
under a generated key and sign a token for it. -/
def register (secret : String) (now : Nat) (db : DB) (ctr : Nat) (b : RegisterBody) :
    ApiResponse × DB × Nat :=
  if !(strTruthy b.email && strTruthy b.password && strTruthy b.name) then
    (⟨400, .obj [("error", .str "Email, password, and name required")]⟩, db, ctr)
  else
    let email := b.email.getD ""
    if !(queryEqualTo db ["users"] "email" email).isEmpty then
      (⟨400, .obj [("error", .str "User already exists")]⟩, db, ctr)
    else
      let userId := pushKey ctr
      let role := if strTruthy b.role then b.role.getD "" else "user"
      let db2 := setAt db ["users", userId] (.obj
        [("email", .str email), ("password", .str (b.password.getD "")),
         ("name", .str (b.name.getD "")), ("role", .str role),
         ("createdAt", .str (isoString now))])
      (⟨200, .obj [("success", .bool true),
        ("token", .str (signToken secret ⟨userId, email, some role⟩ now)),
        ("user", .obj [("id", .str userId), ("email", .str email),
          ("name", .str (b.name.getD "")), ("role", .str role)])]⟩, db2, ctr + 1)

/-- The direct fields of the record at `p`, as stored.  The records
these endpoints write are flat, one level of primitive fields. -/
def childFields (db : DB) (p : Path) : List (String × JVal) :=
  (childKeys db p).filterMap (fun f => (dbGet db (p ++ [f])).map (fun v => (f, v)))

/-- GET /api/employees handler body: every child with its key spliced in
as `id`.  The decoded claims `req.user` are never consulted. -/
def getEmployeesBody (db : DB) (_user : Claims) : JVal :=
  if !(pathExists db ["employees"]) then .arr []
  else .arr ((childKeys db ["employees"]).map (fun k =>
    .obj (("id", .str k) :: childFields db ["employees", k])))

/-- The body of POST /api/employees; the four fields the handler reads. -/
structure EmployeeBody where
  name : JVal
  email : JVal
  role : JVal
  department : JVal

/-- POST /api/employees handler: push a new employee record. -/
def createEmployee (db : DB) (ctr : Nat) (now : Nat) (b : EmployeeBody) (_user : Claims) :
    ApiResponse × DB × Nat :=
  let k := pushKey ctr
  (⟨200, .obj [("success", .bool true), ("id", .str k),
    ("message", .str "Employee created")]⟩,
   setAt db ["employees", k] (.obj
     [("name", b.name), ("email", b.email), ("role", b.role),
      ("department", b.department), ("createdAt", .str (isoString now))]),
   ctr + 1)

/-- PUT /api/employees/:id handler: the body is merged into the record
through `ref.update`. -/
def updateEmployee (db : DB) (id : String) (body : List (String × JVal)) (_user : Claims) :
    ApiResponse × DB :=
  (⟨200, .obj [("success", .bool true), ("message", .str "Employee updated")]⟩,
   updateAt db ["employees", id] body)

/-- DELETE /api/employees/:id handler: `ref.remove`, then success. -/
def deleteEmployee (db : DB) (id : String) (_user : Claims) : ApiResponse × DB :=
  (⟨200, .obj [("success", .bool true), ("message", .str "Employee deleted")]⟩,
   removeAt db ["employees", id])

/-- GET /api/attendance/:employeeId handler body. -/
def getAttendanceBody (db : DB) (employeeId : String) (_user : Claims) : JVal :=
  if !(pathExists db ["attendance", employeeId]) then .arr []
  else .arr ((childKeys db ["attendance", employeeId]).map (fun k =>
    .obj (("id", .str k) :: childFields db ["attendance", employeeId, k])))

/-- POST /api/attendance/login handler, current variant: the date key is
`toISOString().split('T')[0]`, the calendar-date half, so one record per
employee per day, overwritten by a later call the same day. -/
def attendanceLogin (db : DB) (now : Nat) (employeeId : String) (_user : Claims) :
    ApiResponse × DB :=
  let dateKey := ((splitChar 'T' (isoString now)).get? 0).getD ""
  (⟨200, .obj [("success", .bool true), ("message", .str "Login recorded")]⟩,
   setAt db ["attendance", employeeId, dateKey] (.obj
     [("loginTime", .str (isoString now)), ("status", .str "present")]))

/-- POST /api/attendance/login handler, older variant: the `[0]`
indexing is missing, so the whole split array is interpolated into the
path and stringifies comma-joined, date and time together.  (In the
real store this key is also rejected outright for holding `.` and `:`
characters.) -/
def attendanceLoginOld (db : DB) (now : Nat) (employeeId : String) (_user : Claims) :
    ApiResponse × DB :=
  let dateKey := String.intercalate "," (splitChar 'T' (isoString now))
  (⟨200, .obj [("success", .bool true), ("message", .str "Login recorded")]⟩,
   setAt db ["attendance", employeeId, dateKey] (.obj
     [("loginTime", .str (isoString now)), ("status", .str "present")]))

/-- The body of POST /api/save: a collection path and an arbitrary JSON
payload. -/
structure SaveBody where
  path : Option String
  data : Option JVal

/-- POST /api/save, current variant: presence check on both fields, then
`db.ref(path).push().set(data)` under a generated key, echoing the data
back.  A slash-separated path addresses the store level by level. -/
def saveData (db : DB) (ctr : Nat) (b : SaveBody) : ApiResponse × DB × Nat :=
  if !(strTruthy b.path && jsTruthy b.data) then
    (⟨400, .obj [("error", .str "Path and data required")]⟩, db, ctr)
  else
    let p := b.path.getD ""
    let v := b.data.getD (.str "")
    (⟨200, .obj [("success", .bool true),
      ("message", .str ("Data saved to " ++ p)),
      ("data", v)]⟩,
     setAt db (splitChar '/' p ++ [pushKey ctr]) v, ctr + 1)

/-- POST /api/save, older minimal variant (`terait-backend/api/index.js`
lines 32-41): no validation at all, `ref.push(data)`, and a bare
201 response that echoes nothing. -/
def saveDataOld (db : DB) (ctr : Nat) (p : String) (v : JVal) : ApiResponse × DB × Nat :=
  (⟨201, .obj [("message", .str "Saved successfully")]⟩,
   setAt db (splitChar '/' p ++ [pushKey ctr]) v, ctr + 1)

/-- A one-user store used by the concrete instances below. -/
def loginDb : DB :=
  [(["users", "u1", "email"], .str "a@x"), (["users", "u1", "password"], .str "pw"),
   (["users", "u1", "name"], .str "Ana"), (["users", "u1", "role"], .str "admin")]

/-- The field `k` of a JSON object value (first occurrence), if any. -/
def jGet (v : JVal) (k : String) : Option JVal :=
  match v with
  | .obj fs => (fs.find? (fun e => e.1 == k)).map (fun e => e.2)
  | _ => none

/-- The `user.id` field of a login response body. -/
def userIdOf (r : ApiResponse) : Option JVal :=
  (jGet r.body "user").bind (fun u => jGet u "id")

/-!
## Lemmas

First the string-splitting and token toolkit, then the store toolkit,
then one theorem per claim of the specification review.
-/

theorem toList_str_append (a b : String) : (a ++ b).toList = a.toList ++ b.toList := by
  simp [String.toList]

theorem splitChar_eq_single (c : Char) (s : String) (h : c ∉ s.toList) :
    splitChar c s = [s] := by
  have h2 : s.toList.splitOnP (fun x => x == c) = [s.toList] :=
    List.splitOnP_eq_single (fun x => x == c) s.toList
      (fun x hx hbeq => h (by rwa [eq_of_beq hbeq] at hx))
  unfold splitChar
  rw [show s.toList.splitOn c = s.toList.splitOnP (fun x => x == c) from rfl, h2]
  show [s.toList.asString] = [s]
  rw [String.asString_toList]

theorem splitChar_cons_of (c : Char) (s u t : String)
    (h : s.toList = u.toList ++ c :: t.toList) (hu : c ∉ u.toList) :
    splitChar c s = u :: splitChar c t := by
  have h2 : (u.toList ++ c :: t.toList).splitOnP (fun x => x == c)
      = u.toList :: t.toList.splitOnP (fun x => x == c) :=
    List.splitOnP_first (fun x => x == c) u.toList
      (fun x hx hbeq => hu (by rwa [eq_of_beq hbeq] at hx)) c (by simp) t.toList
  unfold splitChar
  rw [h, show (u.toList ++ c :: t.toList).splitOn c
      = (u.toList ++ c :: t.toList).splitOnP (fun x => x == c) from rfl, h2]
  show u.toList.asString :: (t.toList.splitOnP (fun x => x == c)).map List.asString = _
  rw [String.asString_toList]
  rfl

theorem digitChar_isDigit (d : Nat) : (digitChar d).isDigit = true := by
  unfold digitChar
  split_ifs <;> decide

theorem charDigit_digitChar (d : Nat) (h : d < 10) : charDigit (digitChar d) = some d := by
  interval_cases d <;> decide

theorem digitsFuel_lt (f : Nat) : ∀ (n : Nat), ∀ d ∈ digitsFuel f n, d < 10 := by
  induction f with
  | zero => intro n; cases n <;> simp [digitsFuel]
  | succ f ih =>
    intro n
    cases n with
    | zero => simp [digitsFuel]
    | succ n =>
      simp only [digitsFuel, List.mem_cons]
      rintro d (rfl | hd)
      · exact Nat.mod_lt _ (by omega)
      · exact ih _ d hd

theorem charDigitList_map_digitChar (l : List Nat) (h : ∀ d ∈ l, d < 10) :
    charDigitList (l.map digitChar) = some l := by
  induction l with
  | nil => rfl
  | cons d rest ih =>
    simp only [List.map_cons, charDigitList]
    rw [charDigit_digitChar d (h d (by simp)), ih (fun x hx => h x (by simp [hx]))]

theorem digitsVal_digitsFuel (f : Nat) : ∀ n ≤ f, digitsVal (digitsFuel f n) = n := by
  induction f with
  | zero => intro n hn; interval_cases n; rfl
  | succ f ih =>
    intro n hn
    cases n with
    | zero => rfl
    | succ n =>
      have hdiv : (n + 1) / 10 ≤ f := by
        have := Nat.div_lt_self (Nat.succ_pos n) (by omega : 1 < 10)
        omega
      simp only [digitsFuel, digitsVal, ih _ hdiv]
      omega

theorem natDecode_natCode (n : Nat) : natDecode (natCode n) = some n := by
  unfold natDecode natCode
  rw [List.toList_asString, charDigitList_map_digitChar _ (digitsFuel_lt n n)]
  simp [digitsVal_digitsFuel n n le_rfl]

theorem natCode_inj {a b : Nat} (h : natCode a = natCode b) : a = b := by
  have ha := natDecode_natCode a
  rw [h, natDecode_natCode b] at ha
  exact (Option.some_inj.mp ha).symm

theorem natCode_isDigit (n : Nat) : ∀ c ∈ (natCode n).toList, c.isDigit = true := by
  unfold natCode
  rw [List.toList_asString]
  intro c hc
  rcases List.mem_map.mp hc with ⟨d, _, rfl⟩
  exact digitChar_isDigit d

theorem not_mem_natCode {c : Char} (hc : c.isDigit = false) (n : Nat) :
    c ∉ (natCode n).toList :=
  fun h => by rw [natCode_isDigit n c h] at hc; cases hc

theorem pipe_toList : ("|" : String).toList = ['|'] := rfl

theorem not_mem_encodeRole_of {c : Char} {r : Option String}
    (hu : c ≠ 'u') (hs : c ≠ 's') (hr : ∀ x, r = some x → c ∉ x.toList) :
    c ∉ (encodeRole r).toList := by
  cases r with
  | none =>
    intro h
    rw [show encodeRole none = "u" from rfl,
      show ("u" : String).toList = ['u'] from rfl, List.mem_singleton] at h
    exact hu h
  | some x =>
    intro h
    rw [show encodeRole (some x) = "s" ++ x from rfl, toList_str_append,
      show ("s" : String).toList = ['s'] from rfl, List.singleton_append,
      List.mem_cons] at h
    rcases h with h | h
    · exact hs h
    · exact hr x rfl h

theorem not_mem_macTag {c : Char} {secret u e re : String} (x : Nat)
    (hdig : c.isDigit = false) (hlit : c ∉ ("mac<;>" : String).toList)
    (h1 : c ∉ secret.toList) (h2 : c ∉ u.toList) (h3 : c ∉ e.toList)
    (h4 : c ∉ re.toList) :
    c ∉ (macTag secret u e re x).toList := by
  intro hmem
  unfold macTag at hmem
  simp only [toList_str_append, List.mem_append, or_assoc] at hmem
  have hsemi : c ∉ (";" : String).toList :=
    fun hx => hlit ((show (";" : String).toList ⊆ ("mac<;>" : String).toList by decide) hx)
  rcases hmem with h | h | h | h | h | h | h | h | h | h | h
  · exact hlit ((show ("mac<" : String).toList ⊆ ("mac<;>" : String).toList by decide) h)
  · exact h1 h
  · exact hsemi h
  · exact h2 h
  · exact hsemi h
  · exact h3 h
  · exact hsemi h
  · exact h4 h
  · exact hsemi h
  · exact not_mem_natCode hdig x h
  · exact hlit ((show (">" : String).toList ⊆ ("mac<;>" : String).toList by decide) h)

theorem not_mem_signToken {c : Char} {secret : String} {cl : Claims} {iat : Nat}
    (hdig : c.isDigit = false) (hlit : c ∉ ("mac<;>|" : String).toList)
    (h1 : c ∉ secret.toList) (h2 : c ∉ cl.userId.toList) (h3 : c ∉ cl.email.toList)
    (h4 : c ∉ (encodeRole cl.role).toList) :
    c ∉ (signToken secret cl iat).toList := by
  intro hmem
  unfold signToken at hmem
  simp only [toList_str_append, List.mem_append, or_assoc] at hmem
  have hsub : ("|" : String).toList ⊆ ("mac<;>|" : String).toList := by decide
  rcases hmem with h | h | h | h | h | h | h | h | h
  · exact h2 h
  · exact hlit (hsub h)
  · exact h3 h
  · exact hlit (hsub h)
  · exact h4 h
  · exact hlit (hsub h)
  · exact not_mem_natCode hdig _ h
  · exact hlit (hsub h)
  · exact not_mem_macTag _ hdig
      (fun hx => hlit ((show ("mac<;>" : String).toList ⊆ ("mac<;>|" : String).toList
        by decide) hx)) h1 h2 h3 h4 h

theorem roleSafe_encodeRole_pipe {r : Option String} (hr : roleSafe r) :
    '|' ∉ (encodeRole r).toList := by
  refine not_mem_encodeRole_of (by decide) (by decide) (fun x hx => ?_)
  subst hx
  exact hr.1

theorem roleSafe_encodeRole_space {r : Option String} (hr : roleSafe r) :
    ' ' ∉ (encodeRole r).toList := by
  refine not_mem_encodeRole_of (by decide) (by decide) (fun x hx => ?_)
  subst hx
  exact hr.2

theorem decodeRole_encodeRole (r : Option String) : decodeRole (encodeRole r) = some r := by
  cases r with
  | none => rfl
  | some x =>
    show decodeRoleL (("s" ++ x).toList) = some (some x)
    rw [toList_str_append, show ("s" : String).toList = ['s'] from rfl]
    simp only [decodeRoleL, List.singleton_append]
    exact congrArg some (congrArg some (String.asString_toList x))
theorem splitChar_signToken (secret : String) (cl : Claims) (iat : Nat)
    (hs : tokenSafe secret) (hu : tokenSafe cl.userId) (he : tokenSafe cl.email)
    (hr : roleSafe cl.role) :
    splitChar '|' (signToken secret cl iat)
      = [cl.userId, cl.email, encodeRole cl.role, natCode (iat + 86400),
         macTag secret cl.userId cl.email (encodeRole cl.role) (iat + 86400)] := by
  have hre := roleSafe_encodeRole_pipe hr
  have hnc : '|' ∉ (natCode (iat + 86400)).toList := not_mem_natCode (by decide) _
  have e1 := splitChar_cons_of '|' (signToken secret cl iat) cl.userId
    (cl.email ++ "|" ++ encodeRole cl.role ++ "|" ++ natCode (iat + 86400) ++ "|"
      ++ macTag secret cl.userId cl.email (encodeRole cl.role) (iat + 86400))
    (by simp [signToken, toList_str_append, pipe_toList]) hu.1
  have e2 := splitChar_cons_of '|'
    (cl.email ++ "|" ++ encodeRole cl.role ++ "|" ++ natCode (iat + 86400) ++ "|"
      ++ macTag secret cl.userId cl.email (encodeRole cl.role) (iat + 86400)) cl.email
    (encodeRole cl.role ++ "|" ++ natCode (iat + 86400) ++ "|"
      ++ macTag secret cl.userId cl.email (encodeRole cl.role) (iat + 86400))
    (by simp [toList_str_append, pipe_toList]) he.1
  have e3 := splitChar_cons_of '|'
    (encodeRole cl.role ++ "|" ++ natCode (iat + 86400) ++ "|"
      ++ macTag secret cl.userId cl.email (encodeRole cl.role) (iat + 86400))
    (encodeRole cl.role)
    (natCode (iat + 86400) ++ "|"
      ++ macTag secret cl.userId cl.email (encodeRole cl.role) (iat + 86400))
    (by simp [toList_str_append, pipe_toList]) hre
  have e4 := splitChar_cons_of '|'
    (natCode (iat + 86400) ++ "|"
      ++ macTag secret cl.userId cl.email (encodeRole cl.role) (iat + 86400))
    (natCode (iat + 86400))
    (macTag secret cl.userId cl.email (encodeRole cl.role) (iat + 86400))
    (by simp [toList_str_append, pipe_toList]) hnc
  have e5 := splitChar_eq_single '|'
    (macTag secret cl.userId cl.email (encodeRole cl.role) (iat + 86400))
    (not_mem_macTag _ (by decide) (by decide) hs.1 hu.1 he.1 hre)
  rw [e1, e2, e3, e4, e5]

theorem parseToken_signToken (secret : String) (cl : Claims) (iat : Nat)
    (hs : tokenSafe secret) (hu : tokenSafe cl.userId) (he : tokenSafe cl.email)
    (hr : roleSafe cl.role) :
    parseToken (signToken secret cl iat)
      = some (cl.userId, cl.email, encodeRole cl.role, natCode (iat + 86400),
          macTag secret cl.userId cl.email (encodeRole cl.role) (iat + 86400)) := by
  have h := splitChar_signToken secret cl iat hs hu he hr
  unfold parseToken
  rw [h]

theorem jwtVerify_parsed (secret : String) (now : Nat) (s uid email re es tag : String)
    (hp : parseToken s = some (uid, email, re, es, tag)) :
    jwtVerify secret now (.str s) = checkClaims secret now uid email re es tag := by
  simp only [jwtVerify]
  rw [hp]

theorem checkClaims_sign_gen (secret uid email : String) (r : Option String) (e now : Nat)
    (hnow : now < e) :
    checkClaims secret now uid email (encodeRole r) (natCode e)
      (macTag secret uid email (encodeRole r) e) = some ⟨uid, email, r⟩ := by
  have hh := natDecode_natCode e
  have hd := decodeRole_encodeRole r
  unfold checkClaims
  rw [hh, hd]
  show (if (macTag secret uid email (encodeRole r) e == macTag secret uid email (encodeRole r) e
        && decide (now < e)) = true then
      some (⟨uid, email, r⟩ : Claims) else none) = some ⟨uid, email, r⟩
  rw [beq_self_eq_true, decide_eq_true hnow]
  rfl

theorem checkClaims_sign_expired_gen (secret uid email : String) (r : Option String)
    (e now : Nat) (hnow : e ≤ now) :
    checkClaims secret now uid email (encodeRole r) (natCode e)
      (macTag secret uid email (encodeRole r) e) = none := by
  have hh := natDecode_natCode e
  have hd := decodeRole_encodeRole r
  unfold checkClaims
  rw [hh, hd]
  show (if (macTag secret uid email (encodeRole r) e == macTag secret uid email (encodeRole r) e
        && decide (now < e)) = true then
      some (⟨uid, email, r⟩ : Claims) else none) = none
  rw [beq_self_eq_true, decide_eq_false (Nat.not_lt.mpr hnow)]
  rfl

theorem jwtVerify_signToken (secret : String) (cl : Claims) (iat now : Nat)
    (hs : tokenSafe secret) (hu : tokenSafe cl.userId) (he : tokenSafe cl.email)
    (hr : roleSafe cl.role) (hnow : now < iat + 86400) :
    jwtVerify secret now (.str (signToken secret cl iat)) = some cl :=
  (jwtVerify_parsed secret now _ _ _ _ _ _
      (parseToken_signToken secret cl iat hs hu he hr)).trans
    (checkClaims_sign_gen secret cl.userId cl.email cl.role (iat + 86400) now hnow)

theorem jwtVerify_signToken_expired (secret : String) (cl : Claims) (iat now : Nat)
    (hs : tokenSafe secret) (hu : tokenSafe cl.userId) (he : tokenSafe cl.email)
    (hr : roleSafe cl.role) (hnow : iat + 86400 ≤ now) :
    jwtVerify secret now (.str (signToken secret cl iat)) = none :=
  (jwtVerify_parsed secret now _ _ _ _ _ _
      (parseToken_signToken secret cl iat hs hu he hr)).trans
    (checkClaims_sign_expired_gen secret cl.userId cl.email cl.role (iat + 86400) now hnow)

theorem splitChar_bearer (tok : String) (ht : ' ' ∉ tok.toList) :
    splitChar ' ' ("Bearer " ++ tok) = ["Bearer", tok] := by
  have h1 : splitChar ' ' ("Bearer " ++ tok) = "Bearer" :: splitChar ' ' tok :=
    splitChar_cons_of ' ' ("Bearer " ++ tok) "Bearer" tok
      (by simp [toList_str_append,
        show ("Bearer " : String).toList = ['B', 'e', 'a', 'r', 'e', 'r', ' '] from rfl,
        show ("Bearer" : String).toList = ['B', 'e', 'a', 'r', 'e', 'r'] from rfl])
      (by decide)
  rw [h1, splitChar_eq_single ' ' tok ht]

theorem verifyToken_of_verify_some (secret : String) (now : Nat) (tok : String)
    (cl : Claims) (ht : ' ' ∉ tok.toList) (ht0 : (tok == "") = false)
    (hv : jwtVerify secret now (.str tok) = some cl) :
    verifyToken secret now (some ("Bearer " ++ tok)) = .proceed cl := by
  have hb := splitChar_bearer tok ht
  have h1 : (some ("Bearer " ++ tok)).bind (fun h => (splitChar ' ' h).get? 1)
      = some tok := by
    show (splitChar ' ' ("Bearer " ++ tok)).get? 1 = some tok
    rw [hb]
    rfl
  unfold verifyToken
  rw [h1]
  show (if (tok == "") = true then AuthOutcome.reject "No token provided"
    else match jwtVerify secret now (.str tok) with
      | some c => .proceed c
      | none => .reject "Invalid token") = .proceed cl
  rw [ht0, hv]
  rfl

theorem verifyToken_of_verify_none (secret : String) (now : Nat) (tok : String)
    (ht : ' ' ∉ tok.toList) (ht0 : (tok == "") = false)
    (hv : jwtVerify secret now (.str tok) = none) :
    verifyToken secret now (some ("Bearer " ++ tok)) = .reject "Invalid token" := by
  have hb := splitChar_bearer tok ht
  have h1 : (some ("Bearer " ++ tok)).bind (fun h => (splitChar ' ' h).get? 1)
      = some tok := by
    show (splitChar ' ' ("Bearer " ++ tok)).get? 1 = some tok
    rw [hb]
    rfl
  unfold verifyToken
  rw [h1]
  show (if (tok == "") = true then AuthOutcome.reject "No token provided"
    else match jwtVerify secret now (.str tok) with
      | some c => .proceed c
      | none => .reject "Invalid token") = .reject "Invalid token"
  rw [ht0, hv]
  rfl

theorem verifyToken_no_header (secret : String) (now : Nat) :
    verifyToken secret now none = .reject "No token provided" := rfl

theorem verifyTokenOld_some_header (secret : String) (now : Nat) (h : String) :
    verifyTokenOld secret now (some h) = .reject "Invalid token" := rfl

theorem space_not_mem_signToken (secret : String) (cl : Claims) (iat : Nat)
    (hs : tokenSafe secret) (hu : tokenSafe cl.userId) (he : tokenSafe cl.email)
    (hr : roleSafe cl.role) : ' ' ∉ (signToken secret cl iat).toList :=
  not_mem_signToken (by decide) (by decide) hs.2 hu.2 he.2 (roleSafe_encodeRole_space hr)

theorem signToken_beq_empty_false (secret : String) (cl : Claims) (iat : Nat) :
    (signToken secret cl iat == "") = false := by
  have hmem : '|' ∈ (signToken secret cl iat).toList := by
    simp [signToken, toList_str_append, pipe_toList]
  rw [beq_eq_false_iff_ne]
  intro h
  rw [h] at hmem
  exact absurd hmem (by decide)

theorem verifyToken_valid (secret : String) (cl : Claims) (iat now : Nat)
    (hs : tokenSafe secret) (hu : tokenSafe cl.userId) (he : tokenSafe cl.email)
    (hr : roleSafe cl.role) (hnow : now < iat + 86400) :
    verifyToken secret now (some ("Bearer " ++ signToken secret cl iat)) = .proceed cl :=
  verifyToken_of_verify_some secret now _ cl
    (space_not_mem_signToken secret cl iat hs hu he hr)
    (signToken_beq_empty_false secret cl iat)
    (jwtVerify_signToken secret cl iat now hs hu he hr hnow)

theorem verifyToken_expired (secret : String) (cl : Claims) (iat now : Nat)
    (hs : tokenSafe secret) (hu : tokenSafe cl.userId) (he : tokenSafe cl.email)
    (hr : roleSafe cl.role) (hnow : iat + 86400 ≤ now) :
    verifyToken secret now (some ("Bearer " ++ signToken secret cl iat))
      = .reject "Invalid token" :=
  verifyToken_of_verify_none secret now _
    (space_not_mem_signToken secret cl iat hs hu he hr)
    (signToken_beq_empty_false secret cl iat)
    (jwtVerify_signToken_expired secret cl iat now hs hu he hr hnow)

theorem dbGet_append (db1 db2 : DB) (p : Path) :
    dbGet (db1 ++ db2) p = (dbGet db1 p).or (dbGet db2 p) := by
  unfold dbGet
  rw [List.find?_append]
  cases db1.find? (fun e => e.1 == p) <;> rfl

theorem dbGet_removeAt_of_prefix (db : DB) (q p : Path) (h : q <+: p) :
    dbGet (removeAt db q) p = none := by
  unfold dbGet removeAt
  have hf : (db.filter fun e => !(q.isPrefixOf e.1)).find? (fun e => e.1 == p) = none := by
    rw [List.find?_eq_none]
    intro e he hbeq
    have hep : e.1 = p := by rwa [beq_iff_eq] at hbeq
    have hkeep := (List.mem_filter.mp he).2
    rw [hep, List.isPrefixOf_iff_prefix.mpr h] at hkeep
    exact absurd hkeep (by decide)
  rw [hf]
  rfl

theorem dbGet_removeAt_of_not_prefix (db : DB) (q p : Path) (h : ¬ q <+: p) :
    dbGet (removeAt db q) p = dbGet db p := by
  induction db with
  | nil => rfl
  | cons e rest ih =>
    by_cases hq : q.isPrefixOf e.1 = true
    · have hdrop : removeAt (e :: rest) q = removeAt rest q := by
        unfold removeAt
        rw [List.filter_cons_of_neg (by simp [hq])]
      have hne : (e.1 == p) = false := by
        rw [beq_eq_false_iff_ne]
        intro hep
        exact h (List.isPrefixOf_iff_prefix.mp (hep ▸ hq))
      rw [hdrop, ih]
      unfold dbGet
      rw [show (e :: rest).find? (fun x => x.1 == p) = rest.find? (fun x => x.1 == p) from
        List.find?_cons_of_neg _ (by simp [hne])]
    · have hkeep : removeAt (e :: rest) q = e :: removeAt rest q := by
        unfold removeAt
        rw [List.filter_cons_of_pos (by simp [hq])]
      rw [hkeep]
      unfold dbGet
      cases hep : (e.1 == p) with
      | true =>
        rw [show (e :: removeAt rest q).find? (fun x => x.1 == p) = some e from
          List.find?_cons_of_pos _ hep]
        rw [show (e :: rest).find? (fun x => x.1 == p) = some e from
          List.find?_cons_of_pos _ hep]
      | false =>
        rw [show (e :: removeAt rest q).find? (fun x => x.1 == p)
            = (removeAt rest q).find? (fun x => x.1 == p) from
          List.find?_cons_of_neg _ (by simp [hep])]
        rw [show (e :: rest).find? (fun x => x.1 == p) = rest.find? (fun x => x.1 == p) from
          List.find?_cons_of_neg _ (by simp [hep])]
        exact ih

theorem dbGet_cons_self (x : Path × JVal) (db : DB) : dbGet (x :: db) x.1 = some x.2 := by
  unfold dbGet
  rw [show (x :: db).find? (fun e => e.1 == x.1) = some x from
    List.find?_cons_of_pos _ (by simp)]
  rfl

theorem dbGet_cons_ne (x : Path × JVal) (db : DB) (q : Path) (h : x.1 ≠ q) :
    dbGet (x :: db) q = dbGet db q := by
  unfold dbGet
  rw [show (x :: db).find? (fun e => e.1 == q) = db.find? (fun e => e.1 == q) from
    List.find?_cons_of_neg _ (by simp [h])]

theorem dbGet_nil (q : Path) : dbGet [] q = none := rfl

theorem subtree_append (db1 db2 : DB) (p : Path) :
    subtreeEntries (db1 ++ db2) p = subtreeEntries db1 p ++ subtreeEntries db2 p := by
  simp [subtreeEntries, List.filter_append]

theorem subtree_removeAt_of_prefix (db : DB) (q p : Path) (h : q <+: p) :
    subtreeEntries (removeAt db q) p = [] := by
  unfold subtreeEntries removeAt
  rw [List.filter_filter]
  rw [show db.filter (fun a => p.isPrefixOf a.1 && !(q.isPrefixOf a.1)) = [] from ?_]
  · rfl
  · rw [List.filter_eq_nil_iff]
    intro e _ hcl
    rw [Bool.and_eq_true] at hcl
    have hpe : p <+: e.1 := List.isPrefixOf_iff_prefix.mp hcl.1
    have hqe : q <+: e.1 := h.trans hpe
    rw [List.isPrefixOf_iff_prefix.mpr hqe] at hcl
    exact absurd hcl.2 (by decide)

theorem subtree_removeAt_incomp (db : DB) (q p : Path) (h1 : ¬ q <+: p) (h2 : ¬ p <+: q) :
    subtreeEntries (removeAt db q) p = subtreeEntries db p := by
  unfold subtreeEntries removeAt
  rw [List.filter_filter]
  rw [List.filter_congr (fun e _ => ?_)]
  cases hp : p.isPrefixOf e.1 with
  | true =>
    have hpe : p <+: e.1 := List.isPrefixOf_iff_prefix.mp hp
    have hq : q.isPrefixOf e.1 = false := by
      cases hqb : q.isPrefixOf e.1 with
      | true =>
        rcases List.prefix_or_prefix_of_prefix (List.isPrefixOf_iff_prefix.mp hqb) hpe with
          hc | hc
        · exact absurd hc h1
        · exact absurd hc h2
      | false => rfl
    rw [hq]
    rfl
  | false => rw [Bool.false_and]

theorem subtree_all_under (db2 : DB) (q p : Path)
    (hall : ∀ e ∈ db2, q <+: e.1) (h1 : ¬ q <+: p) (h2 : ¬ p <+: q) :
    subtreeEntries db2 p = [] := by
  unfold subtreeEntries
  rw [show db2.filter (fun e => p.isPrefixOf e.1) = [] from ?_]
  · rfl
  · rw [List.filter_eq_nil_iff]
    intro e he hpe
    have hp : p <+: e.1 := List.isPrefixOf_iff_prefix.mp hpe
    rcases List.prefix_or_prefix_of_prefix (hall e he) hp with hc | hc
    · exact h1 hc
    · exact h2 hc

theorem subtree_setAt_self (db : DB) (p : Path) (v : JVal) :
    subtreeEntries (setAt db p v) p = flattenRel v := by
  unfold setAt
  rw [subtree_append, subtree_removeAt_of_prefix db p p (List.prefix_refl p),
    List.nil_append]
  unfold subtreeEntries
  rw [List.filter_map]
  have hfil : ((flattenRel v).filter
      ((fun e => p.isPrefixOf e.1) ∘ fun e => (p ++ e.1, e.2))) = flattenRel v :=
    List.filter_eq_self.mpr (fun e _ =>
      show List.isPrefixOf p (p ++ e.1) = true from
        List.isPrefixOf_iff_prefix.mpr (List.prefix_append p e.1))
  rw [hfil, List.map_map]
  have hmap : ∀ e ∈ flattenRel v,
      ((fun e => (e.1.drop p.length, e.2)) ∘ fun e => (p ++ e.1, e.2)) e = id e :=
    fun e _ => show ((p ++ e.1).drop p.length, e.2) = e by rw [List.drop_left]
  rw [List.map_congr_left hmap, List.map_id]

theorem subtree_setAt_other (db : DB) (q p2 : Path) (v : JVal)
    (h1 : ¬ q <+: p2) (h2 : ¬ p2 <+: q) :
    subtreeEntries (setAt db q v) p2 = subtreeEntries db p2 := by
  unfold setAt
  rw [subtree_append, subtree_removeAt_incomp db q p2 h1 h2]
  have hz : subtreeEntries ((flattenRel v).map (fun e => (q ++ e.1, e.2))) p2 = [] := by
    refine subtree_all_under _ q p2 (fun e he => ?_) h1 h2
    rcases List.mem_map.mp he with ⟨x, _, rfl⟩
    exact ⟨x.1, rfl⟩
  rw [hz, List.append_nil]

theorem append_singleton_incomp {p : Path} {k f : String} (h : k ≠ f) :
    ¬ (p ++ [k]) <+: (p ++ [f]) := by
  intro hp
  rcases hp with ⟨t, ht⟩
  rw [List.append_assoc] at ht
  have h2 := List.append_cancel_left ht
  rw [List.singleton_append] at h2
  injection h2 with h3 _
  exact h h3

theorem path_append_singleton_ne (p : Path) {a b : String} (h : a ≠ b) :
    p ++ [a] ≠ p ++ [b] := by
  intro he
  have h2 := List.append_cancel_left he
  injection h2 with h3 _
  exact h h3

theorem updateAt_spec (p : Path) (body : List (String × JVal)) :
    ∀ db : DB, (body.map Prod.fst).Nodup →
    (∀ f, f ∉ body.map Prod.fst →
      subtreeEntries (updateAt db p body) (p ++ [f]) = subtreeEntries db (p ++ [f])) ∧
    (∀ f v, (f, v) ∈ body →
      subtreeEntries (updateAt db p body) (p ++ [f]) = flattenRel v) := by
  induction body with
  | nil =>
    intro db _
    exact ⟨fun f _ => rfl, fun f v hv => absurd hv (List.not_mem_nil _)⟩
  | cons kv rest ih =>
    intro db hnd
    obtain ⟨k, v⟩ := kv
    rw [List.map_cons] at hnd
    have hk : k ∉ rest.map Prod.fst := (List.nodup_cons.mp hnd).1
    have hrest := (List.nodup_cons.mp hnd).2
    have ihs := ih (setAt db (p ++ [k]) v) hrest
    have hstep : updateAt db p ((k, v) :: rest)
        = updateAt (setAt db (p ++ [k]) v) p rest := rfl
    constructor
    · intro f hf
      rw [List.map_cons, List.mem_cons, not_or] at hf
      rw [hstep, ihs.1 f hf.2]
      exact subtree_setAt_other db (p ++ [k]) (p ++ [f]) v
        (append_singleton_incomp (fun he => hf.1 he.symm))
        (append_singleton_incomp (fun he => hf.1 he))
    · intro f v2 hv2
      rw [hstep]
      rcases List.mem_cons.mp hv2 with heq | hmem
      · have hf : f = k := congrArg Prod.fst heq
        have hv : v2 = v := congrArg Prod.snd heq
        subst hf
        subst hv
        rw [ihs.1 f hk]
        exact subtree_setAt_self db (p ++ [f]) v2
      · exact ihs.2 f v2 hmem

theorem removeAt_of_not_exists (db : DB) (p : Path) (h : pathExists db p = false) :
    removeAt db p = db := by
  unfold pathExists at h
  rw [List.any_eq_false] at h
  unfold removeAt
  refine List.filter_eq_self.mpr (fun e he => ?_)
  cases hb : List.isPrefixOf p e.1 with
  | true => exact absurd hb (h e he)
  | false => rfl

theorem strTruthy_some {s : String} (h : s ≠ "") : strTruthy (some s) = true := by
  unfold strTruthy
  simp [h]

theorem tokenSafe_pushKey (n : Nat) : tokenSafe (pushKey n) := by
  constructor <;>
  · intro hmem
    unfold pushKey at hmem
    rw [toList_str_append, List.mem_append,
      show ("-K" : String).toList = ['-', 'K'] from rfl] at hmem
    rcases hmem with h | h
    · exact absurd h (by decide)
    · exact not_mem_natCode (by decide) n h

theorem leafEqStr_true {l : Option JVal} {v : String} (h : leafEqStr l v = true) :
    l = some (.str v) := by
  match l, h with
  | some (.str s), h =>
    have hs : s = v := by
      have h2 : (s == v) = true := h
      rwa [beq_iff_eq] at h2
    rw [hs]

theorem queryEqualTo_mem {db : DB} {p : Path} {child v k : String}
    (h : k ∈ queryEqualTo db p child v) :
    dbGet db (p ++ [k, child]) = some (.str v) := by
  unfold queryEqualTo at h
  exact leafEqStr_true (List.mem_filter.mp h).2

theorem not_mem_isoDatePart {c : Char} (hdig : c.isDigit = false) (hd : c ≠ 'd')
    (t : Nat) : c ∉ (isoDatePart t).toList := by
  intro hmem
  unfold isoDatePart at hmem
  rw [toList_str_append, List.mem_append, show ("d" : String).toList = ['d'] from rfl] at hmem
  rcases hmem with h | h
  · exact hd (List.mem_singleton.mp h)
  · exact not_mem_natCode hdig _ h

theorem not_mem_isoTimePart {c : Char} (hdig : c.isDigit = false) (hh : c ≠ 'h')
    (t : Nat) : c ∉ (isoTimePart t).toList := by
  intro hmem
  unfold isoTimePart at hmem
  rw [toList_str_append, List.mem_append, show ("h" : String).toList = ['h'] from rfl] at hmem
  rcases hmem with h | h
  · exact hh (List.mem_singleton.mp h)
  · exact not_mem_natCode hdig _ h

theorem splitChar_isoString (t : Nat) :
    splitChar 'T' (isoString t) = [isoDatePart t, isoTimePart t] := by
  have h1 : splitChar 'T' (isoString t) = isoDatePart t :: splitChar 'T' (isoTimePart t) :=
    splitChar_cons_of 'T' (isoString t) (isoDatePart t) (isoTimePart t)
      (by simp [isoString, toList_str_append, show ("T" : String).toList = ['T'] from rfl])
      (not_mem_isoDatePart (by decide) (by decide) t)
  rw [h1, splitChar_eq_single 'T' _ (not_mem_isoTimePart (by decide) (by decide) t)]

theorem isoTimePart_inj {t1 t2 : Nat} (h : isoTimePart t1 = isoTimePart t2) :
    t1 % 86400 = t2 % 86400 := by
  unfold isoTimePart at h
  have h2 : ("h" ++ natCode (t1 % 86400)).toList = ("h" ++ natCode (t2 % 86400)).toList :=
    congrArg String.toList h
  rw [toList_str_append, toList_str_append,
    show ("h" : String).toList = ['h'] from rfl] at h2
  have h3 : (natCode (t1 % 86400)).toList = (natCode (t2 % 86400)).toList :=
    List.cons.inj h2 |>.2
  exact natCode_inj (String.toList_inj.mp h3)

theorem isoDatePart_congr {t1 t2 : Nat} (h : t1 / 86400 = t2 / 86400) :
    isoDatePart t1 = isoDatePart t2 := by
  unfold isoDatePart
  rw [h]

/-- C7: for every path, DELETE /api/employees/:id on a path where no
record exists raises no error and responds success, and the delete is a
no-op on the store. -/
theorem delete_employee_missing_spec (db : DB) (id : String) (u : Claims)
    (h : pathExists db ["employees", id] = false) :
    (deleteEmployee db id u).1
      = ⟨200, .obj [("success", .bool true), ("message", .str "Employee deleted")]⟩ ∧
    (deleteEmployee db id u).2 = db := by
  refine ⟨rfl, ?_⟩
  show removeAt db ["employees", id] = db
  exact removeAt_of_not_exists db _ h

theorem delete_employee_missing_spec_witness :
    pathExists [(["users", "u1", "email"], JVal.str "a")] ["employees", "e9"] = false ∧
    (deleteEmployee [(["users", "u1", "email"], JVal.str "a")] "e9" ⟨"u", "e", none⟩).1
      = ⟨200, .obj [("success", .bool true), ("message", .str "Employee deleted")]⟩ ∧
    (deleteEmployee [(["users", "u1", "email"], JVal.str "a")] "e9" ⟨"u", "e", none⟩).2
      = [(["users", "u1", "email"], JVal.str "a")] := by
  refine ⟨by decide, ?_, ?_⟩
  · exact (delete_employee_missing_spec _ "e9" ⟨"u", "e", none⟩ (by decide)).1
  · exact (delete_employee_missing_spec _ "e9" ⟨"u", "e", none⟩ (by decide)).2

/-- C5: PUT /api/employees/:id merges the body into the stored record:
fields named in the body are replaced by the body values and every field
not named in the body is unchanged, and the response reports success. -/
theorem update_employee_merge_spec (db : DB) (id : String)
    (body : List (String × JVal)) (u : Claims) (hnd : (body.map Prod.fst).Nodup) :
    (updateEmployee db id body u).1
      = ⟨200, .obj [("success", .bool true), ("message", .str "Employee updated")]⟩ ∧
    (∀ f, f ∉ body.map Prod.fst →
      subtreeEntries (updateEmployee db id body u).2 (["employees", id] ++ [f])
        = subtreeEntries db (["employees", id] ++ [f])) ∧
    (∀ f v, (f, v) ∈ body →
      subtreeEntries (updateEmployee db id body u).2 (["employees", id] ++ [f])
        = flattenRel v) :=
  ⟨rfl, (updateAt_spec ["employees", id] body db hnd).1,
    (updateAt_spec ["employees", id] body db hnd).2⟩

theorem update_employee_merge_spec_witness :
    (([("name", JVal.str "B")]).map Prod.fst).Nodup ∧
    subtreeEntries
      (updateEmployee [(["employees", "e1", "name"], JVal.str "A"),
        (["employees", "e1", "dept"], JVal.str "D")] "e1"
        [("name", JVal.str "B")] ⟨"u", "e", none⟩).2
      (["employees", "e1"] ++ ["dept"])
      = subtreeEntries [(["employees", "e1", "name"], JVal.str "A"),
        (["employees", "e1", "dept"], JVal.str "D")] (["employees", "e1"] ++ ["dept"]) ∧
    subtreeEntries
      (updateEmployee [(["employees", "e1", "name"], JVal.str "A"),
        (["employees", "e1", "dept"], JVal.str "D")] "e1"
        [("name", JVal.str "B")] ⟨"u", "e", none⟩).2
      (["employees", "e1"] ++ ["name"])
      = flattenRel (JVal.str "B") := by
  refine ⟨by decide, ?_, ?_⟩
  · exact (update_employee_merge_spec _ "e1" _ ⟨"u", "e", none⟩ (by decide)).2.1 "dept"
      (by decide)
  · exact (update_employee_merge_spec _ "e1" _ ⟨"u", "e", none⟩ (by decide)).2.2 "name"
      (JVal.str "B") (List.mem_singleton.mpr rfl)

/-- C9: for two otherwise identical requests whose valid, unexpired
tokens differ only in the role claim, every protected route accepts
both and the handlers behave identically: no protected route branches
on the decoded role. -/
theorem protected_routes_role_blind (secret : String) (iat now : Nat) (db : DB)
    (ctr : Nat) (eb : EmployeeBody) (ub : List (String × JVal)) (id eid : String)
    (c1 c2 : Claims) (hid : c1.userId = c2.userId) (hem : c1.email = c2.email)
    (hs : tokenSafe secret) (hu1 : tokenSafe c1.userId) (he1 : tokenSafe c1.email)
    (hr1 : roleSafe c1.role) (hr2 : roleSafe c2.role) (hnow : now < iat + 86400) :
    verifyToken secret now (some ("Bearer " ++ signToken secret c1 iat)) = .proceed c1 ∧
    verifyToken secret now (some ("Bearer " ++ signToken secret c2 iat)) = .proceed c2 ∧
    getEmployeesBody db c1 = getEmployeesBody db c2 ∧
    createEmployee db ctr now eb c1 = createEmployee db ctr now eb c2 ∧
    updateEmployee db id ub c1 = updateEmployee db id ub c2 ∧
    deleteEmployee db id c1 = deleteEmployee db id c2 ∧
    getAttendanceBody db eid c1 = getAttendanceBody db eid c2 ∧
    attendanceLogin db now eid c1 = attendanceLogin db now eid c2 := by
  have hu2 : tokenSafe c2.userId := hid ▸ hu1
  have he2 : tokenSafe c2.email := hem ▸ he1
  exact ⟨verifyToken_valid secret c1 iat now hs hu1 he1 hr1 hnow,
    verifyToken_valid secret c2 iat now hs hu2 he2 hr2 hnow,
    rfl, rfl, rfl, rfl, rfl, rfl⟩

theorem protected_routes_role_blind_witness :
    verifyToken "sec" 5
        (some ("Bearer " ++ signToken "sec" ⟨"u1", "a@x", some "admin"⟩ 3))
      = .proceed ⟨"u1", "a@x", some "admin"⟩ ∧
    verifyToken "sec" 5
        (some ("Bearer " ++ signToken "sec" ⟨"u1", "a@x", some "user"⟩ 3))
      = .proceed ⟨"u1", "a@x", some "user"⟩ ∧
    getEmployeesBody [] ⟨"u1", "a@x", some "admin"⟩
      = getEmployeesBody [] ⟨"u1", "a@x", some "user"⟩ ∧
    attendanceLogin [] 5 "e2" ⟨"u1", "a@x", some "admin"⟩
      = attendanceLogin [] 5 "e2" ⟨"u1", "a@x", some "user"⟩ := by
  have h := protected_routes_role_blind "sec" 3 5 [] 0
    ⟨JVal.str "n", JVal.str "e", JVal.str "r", JVal.str "d"⟩ [] "e1" "e2"
    ⟨"u1", "a@x", some "admin"⟩ ⟨"u1", "a@x", some "user"⟩ rfl rfl
    (by decide) (by decide) (by decide) (by decide) (by decide) (by decide)
  exact ⟨h.1, h.2.1, h.2.2.1, h.2.2.2.2.2.2.2⟩

/-- C1: under the current middleware, a request with no Authorization
header is rejected 401 `No token provided`; a tampered token (one the
verifier rejects) or an expired token is rejected 401 `Invalid token`;
and a freshly issued valid token proceeds into the handler with the
decoded claims attached.  The older middleware in
`terait-backend/api/index.js`, which omits the `[1]` indexing, passes
the whole split array to the verifier and therefore rejects even a
freshly issued valid token. -/
theorem protected_routes_auth (secret : String) (now now2 iat : Nat) (cl : Claims)
    (t : String) (hs : tokenSafe secret) (hu : tokenSafe cl.userId)
    (he : tokenSafe cl.email) (hr : roleSafe cl.role)
    (ht : ' ' ∉ t.toList) (ht0 : (t == "") = false)
    (hv : jwtVerify secret now (.str t) = none)
    (hnow : now < iat + 86400) (hnow2 : iat + 86400 ≤ now2) :
    (∀ {α : Type} (h : Claims → α),
      runProtected secret now none h = .error "No token provided") ∧
    (∀ {α : Type} (h : Claims → α),
      runProtected secret now (some ("Bearer " ++ t)) h = .error "Invalid token") ∧
    (∀ {α : Type} (h : Claims → α),
      runProtected secret now2 (some ("Bearer " ++ signToken secret cl iat)) h
        = .error "Invalid token") ∧
    (∀ {α : Type} (h : Claims → α),
      runProtected secret now (some ("Bearer " ++ signToken secret cl iat)) h
        = .ok (h cl)) ∧
    verifyTokenOld secret now (some ("Bearer " ++ signToken secret cl iat))
      = .reject "Invalid token" := by
  refine ⟨?_, ?_, ?_, ?_, rfl⟩
  · intro α h
    rfl
  · intro α h
    unfold runProtected
    rw [verifyToken_of_verify_none secret now t ht ht0 hv]
  · intro α h
    unfold runProtected
    rw [verifyToken_expired secret cl iat now2 hs hu he hr hnow2]
  · intro α h
    unfold runProtected
    rw [verifyToken_valid secret cl iat now hs hu he hr hnow]

theorem protected_routes_auth_witness :
    runProtected "sec" 5 none (fun u => u.email) = .error "No token provided" ∧
    runProtected "sec" 5 (some ("Bearer " ++ "zzz")) (fun u => u.email)
      = .error "Invalid token" ∧
    runProtected "sec" 90000
        (some ("Bearer " ++ signToken "sec" ⟨"u1", "a@x", some "admin"⟩ 3))
        (fun u => u.email) = .error "Invalid token" ∧
    runProtected "sec" 5
        (some ("Bearer " ++ signToken "sec" ⟨"u1", "a@x", some "admin"⟩ 3))
        (fun u => u.email) = .ok "a@x" ∧
    verifyTokenOld "sec" 5
        (some ("Bearer " ++ signToken "sec" ⟨"u1", "a@x", some "admin"⟩ 3))
      = .reject "Invalid token" := by
  have h := protected_routes_auth "sec" 5 90000 3 ⟨"u1", "a@x", some "admin"⟩ "zzz"
    (by decide) (by decide) (by decide) (by decide) (by decide) (by decide)
    (by decide) (by decide) (by decide)
  exact ⟨h.1 (fun u => u.email), h.2.1 (fun u => u.email),
    h.2.2.1 (fun u => u.email), h.2.2.2.1 (fun u => u.email), h.2.2.2.2⟩

theorem str_append_left_cancel {s a b : String} (h : s ++ a = s ++ b) : a = b := by
  have h2 := congrArg String.toList h
  rw [toList_str_append, toList_str_append] at h2
  exact String.toList_inj.mp (List.append_cancel_left h2)

theorem isoKey_ne_datePart (t : Nat) :
    isoDatePart t ++ "," ++ isoTimePart t ≠ isoDatePart t := by
  intro hcontra
  have h2 := congrArg (fun s => s.toList.length) hcontra
  simp only [toList_str_append, List.length_append,
    show ("," : String).toList = [','] from rfl, List.length_cons] at h2
  omega

theorem attendanceLogin_snd (db : DB) (now : Nat) (eid : String) (u : Claims) :
    (attendanceLogin db now eid u).2
      = setAt db (["attendance", eid] ++ [isoDatePart now])
          (.obj [("loginTime", .str (isoString now)), ("status", .str "present")]) := by
  unfold attendanceLogin
  rw [splitChar_isoString]
  rfl

theorem attendanceLoginOld_snd (db : DB) (now : Nat) (eid : String) (u : Claims) :
    (attendanceLoginOld db now eid u).2
      = setAt db (["attendance", eid] ++ [isoDatePart now ++ "," ++ isoTimePart now])
          (.obj [("loginTime", .str (isoString now)), ("status", .str "present")]) := by
  unfold attendanceLoginOld
  rw [splitChar_isoString]
  rfl

/-- C6: the current POST /api/attendance/login stores the record at
`attendance/{employeeId}/{calendar date}` with a login timestamp and
status `present`, so a second call for the same employee on the same
day overwrites the record: at most one record per employee per day.
The older variant in `terait-backend/api/index.js` omits the `[0]`
indexing, so its key is the comma-joined split array (date and time
together): that key is not the calendar date, and two same-day calls
use two different keys and leave two records. -/
theorem attendance_login_key_spec (db : DB) (now1 now2 : Nat) (eid : String) (u : Claims)
    (hday : now1 / 86400 = now2 / 86400) (htime : now1 % 86400 ≠ now2 % 86400) :
    (attendanceLogin db now1 eid u).1
      = ⟨200, .obj [("success", .bool true), ("message", .str "Login recorded")]⟩ ∧
    subtreeEntries (attendanceLogin db now1 eid u).2
        (["attendance", eid] ++ [isoDatePart now1])
      = [(["loginTime"], .str (isoString now1)), (["status"], .str "present")] ∧
    subtreeEntries (attendanceLogin (attendanceLogin db now1 eid u).2 now2 eid u).2
        (["attendance", eid] ++ [isoDatePart now1])
      = [(["loginTime"], .str (isoString now2)), (["status"], .str "present")] ∧
    isoDatePart now1 ++ "," ++ isoTimePart now1 ≠ isoDatePart now1 ∧
    subtreeEntries
        (attendanceLoginOld (attendanceLoginOld db now1 eid u).2 now2 eid u).2
        (["attendance", eid] ++ [isoDatePart now1 ++ "," ++ isoTimePart now1])
      = [(["loginTime"], .str (isoString now1)), (["status"], .str "present")] ∧
    subtreeEntries
        (attendanceLoginOld (attendanceLoginOld db now1 eid u).2 now2 eid u).2
        (["attendance", eid] ++ [isoDatePart now2 ++ "," ++ isoTimePart now2])
      = [(["loginTime"], .str (isoString now2)), (["status"], .str "present")] := by
  have hdp : isoDatePart now2 = isoDatePart now1 := isoDatePart_congr hday.symm
  have htp : isoTimePart now1 ≠ isoTimePart now2 := fun hteq => htime (isoTimePart_inj hteq)
  have hkeys : isoDatePart now1 ++ "," ++ isoTimePart now1
      ≠ isoDatePart now2 ++ "," ++ isoTimePart now2 := by
    rw [hdp]
    intro hk
    exact htp (str_append_left_cancel hk)
  refine ⟨rfl, ?_, ?_, isoKey_ne_datePart now1, ?_, ?_⟩
  · rw [attendanceLogin_snd]
    exact subtree_setAt_self db _ _
  · rw [attendanceLogin_snd, attendanceLogin_snd, hdp]
    exact subtree_setAt_self _ _ _
  · rw [attendanceLoginOld_snd, attendanceLoginOld_snd]
    rw [subtree_setAt_other _ _ _ _
      (append_singleton_incomp (fun hk => hkeys hk.symm))
      (append_singleton_incomp hkeys)]
    exact subtree_setAt_self _ _ _
  · rw [attendanceLoginOld_snd, attendanceLoginOld_snd]
    exact subtree_setAt_self _ _ _

theorem attendance_login_key_spec_witness :
    (3 : Nat) / 86400 = (5 : Nat) / 86400 ∧ (3 : Nat) % 86400 ≠ (5 : Nat) % 86400 ∧
    subtreeEntries (attendanceLogin [] 3 "e1" ⟨"u", "e", none⟩).2
        (["attendance", "e1"] ++ [isoDatePart 3])
      = [(["loginTime"], .str (isoString 3)), (["status"], .str "present")] ∧
    subtreeEntries (attendanceLogin (attendanceLogin [] 3 "e1" ⟨"u", "e", none⟩).2 5
        "e1" ⟨"u", "e", none⟩).2 (["attendance", "e1"] ++ [isoDatePart 3])
      = [(["loginTime"], .str (isoString 5)), (["status"], .str "present")] ∧
    subtreeEntries
        (attendanceLoginOld (attendanceLoginOld [] 3 "e1" ⟨"u", "e", none⟩).2 5
          "e1" ⟨"u", "e", none⟩).2
        (["attendance", "e1"] ++ [isoDatePart 3 ++ "," ++ isoTimePart 3])
      = [(["loginTime"], .str (isoString 3)), (["status"], .str "present")] := by
  have h := attendance_login_key_spec [] 3 5 "e1" ⟨"u", "e", none⟩ (by decide) (by decide)
  exact ⟨by decide, by decide, h.2.1, h.2.2.1, h.2.2.2.2.1⟩

/-- C3: POST /api/login responds 400 when email or password is missing,
401 when no stored user has the email or when the stored password is
not byte-for-byte equal to the supplied one, and otherwise responds
success with a signed token and the user's id, email, name and role. -/
theorem login_validation_spec (secret : String) (now : Nat) (db : DB) (b : LoginBody)
    (em pw k nm rl : String) :
    ((b.email = none ∨ b.password = none) →
      login secret now db b
        = ⟨400, .obj [("error", .str "Email and password required")]⟩) ∧
    (b.email = some em → b.password = some pw → em ≠ "" → pw ≠ "" →
      queryEqualTo db ["users"] "email" em = [] →
      login secret now db b = ⟨401, .obj [("error", .str "Invalid credentials")]⟩) ∧
    (b.email = some em → b.password = some pw → em ≠ "" → pw ≠ "" →
      queryEqualTo db ["users"] "email" em = [k] →
      leafEqStr (dbGet db ["users", k, "password"]) pw = false →
      login secret now db b = ⟨401, .obj [("error", .str "Invalid credentials")]⟩) ∧
    (b.email = some em → b.password = some pw → em ≠ "" → pw ≠ "" →
      queryEqualTo db ["users"] "email" em = [k] →
      leafEqStr (dbGet db ["users", k, "password"]) pw = true →
      dbGet db ["users", k, "name"] = some (.str nm) →
      dbGet db ["users", k, "role"] = some (.str rl) →
      login secret now db b
        = ⟨200, .obj [("success", .bool true),
            ("token", .str (signToken secret ⟨k, em, some rl⟩ now)),
            ("user", .obj [("id", .str k), ("email", .str em),
              ("name", .str nm), ("role", .str rl)])]⟩) := by
  refine ⟨?_, ?_, ?_, ?_⟩
  · intro hmiss
    unfold login
    rcases hmiss with h | h
    · rw [h]
      rfl
    · rw [h]
      cases hbe : strTruthy b.email
      · rfl
      · rfl
  · intro hem hpw hem1 hpw1 hq
    unfold login
    rw [hem, hpw,
      if_neg (by rw [strTruthy_some hem1, strTruthy_some hpw1]; decide)]
    simp only [Option.getD_some]
    rw [hq]
  · intro hem hpw hem1 hpw1 hq hbad
    unfold login
    rw [hem, hpw,
      if_neg (by rw [strTruthy_some hem1, strTruthy_some hpw1]; decide)]
    simp only [Option.getD_some]
    rw [hq]
    show (if (!leafEqStr (dbGet db ["users", k, "password"]) pw) = true
        then (⟨401, .obj [("error", .str "Invalid credentials")]⟩ : ApiResponse)
        else _) = _
    rw [hbad]
    rfl
  · intro hem hpw hem1 hpw1 hq hgood hnm hrl
    have hemleaf : dbGet db ["users", k, "email"] = some (.str em) :=
      queryEqualTo_mem (k := k) (hq ▸ List.mem_singleton.mpr rfl)
    unfold login
    rw [hem, hpw,
      if_neg (by rw [strTruthy_some hem1, strTruthy_some hpw1]; decide)]
    simp only [Option.getD_some]
    rw [hq]
    show (if (!leafEqStr (dbGet db ["users", k, "password"]) pw) = true
        then (⟨401, .obj [("error", .str "Invalid credentials")]⟩ : ApiResponse)
        else ⟨200, .obj [("success", .bool true),
          ("token", .str (signToken secret
            ⟨k, em, leafStr (dbGet db ["users", k, "role"])⟩ now)),
          ("user", .obj ([("id", .str k)]
            ++ optField "email" (dbGet db ["users", k, "email"])
            ++ optField "name" (dbGet db ["users", k, "name"])
            ++ optField "role" (dbGet db ["users", k, "role"])))]⟩) = _
    rw [hgood, hemleaf, hnm, hrl]
    rfl

theorem login_validation_spec_witness :
    login "sec" 5 loginDb ⟨none, some "pw"⟩
      = ⟨400, .obj [("error", .str "Email and password required")]⟩ ∧
    login "sec" 5 loginDb ⟨some "b@x", some "pw"⟩
      = ⟨401, .obj [("error", .str "Invalid credentials")]⟩ ∧
    login "sec" 5 loginDb ⟨some "a@x", some "bad"⟩
      = ⟨401, .obj [("error", .str "Invalid credentials")]⟩ ∧
    login "sec" 5 loginDb ⟨some "a@x", some "pw"⟩
      = ⟨200, .obj [("success", .bool true),
          ("token", .str (signToken "sec" ⟨"u1", "a@x", some "admin"⟩ 5)),
          ("user", .obj [("id", .str "u1"), ("email", .str "a@x"),
            ("name", .str "Ana"), ("role", .str "admin")])]⟩ := by
  refine ⟨?_, ?_, ?_, ?_⟩
  · exact (login_validation_spec "sec" 5 loginDb ⟨none, some "pw"⟩
      "" "" "" "" "").1 (Or.inl rfl)
  · exact (login_validation_spec "sec" 5 loginDb ⟨some "b@x", some "pw"⟩
      "b@x" "pw" "" "" "").2.1 rfl rfl (by decide) (by decide) (by decide)
  · exact (login_validation_spec "sec" 5 loginDb ⟨some "a@x", some "bad"⟩
      "a@x" "bad" "u1" "" "").2.2.1 rfl rfl (by decide) (by decide) (by decide)
      (by decide)
  · exact (login_validation_spec "sec" 5 loginDb ⟨some "a@x", some "pw"⟩
      "a@x" "pw" "u1" "Ana" "admin").2.2.2 rfl rfl (by decide) (by decide)
      (by decide) (by decide) rfl rfl

/-- C4: registering an email that already exists responds 400 (not 409)
with `User already exists` and neither writes a record nor consumes a
push key. -/
theorem register_duplicate_spec (secret : String) (now : Nat) (db : DB) (ctr : Nat)
    (b : RegisterBody) (em : String)
    (hem : b.email = some em) (hem1 : em ≠ "")
    (hpw : strTruthy b.password = true) (hnm : strTruthy b.name = true)
    (hdup : queryEqualTo db ["users"] "email" em ≠ []) :
    register secret now db ctr b
      = (⟨400, .obj [("error", .str "User already exists")]⟩, db, ctr) := by
  unfold register
  rw [hem, if_neg (by rw [strTruthy_some hem1, hpw, hnm]; decide)]
  simp only [Option.getD_some]
  rw [if_pos (by rw [List.isEmpty_eq_false.mpr hdup]; decide)]

theorem register_duplicate_spec_witness :
    queryEqualTo loginDb ["users"] "email" "a@x" ≠ [] ∧
    register "sec" 5 loginDb 0 ⟨some "a@x", some "q", some "N", none⟩
      = (⟨400, .obj [("error", .str "User already exists")]⟩, loginDb, 0) := by
  refine ⟨by decide, ?_⟩
  exact register_duplicate_spec "sec" 5 loginDb 0 ⟨some "a@x", some "q", some "N", none⟩
    "a@x" rfl (by decide) (by decide) (by decide) (by decide)

/-- C2: for a body with email, password and name present and an email
not yet registered, POST /api/register creates the user record under
the store-generated key, answers success with the new user's fields,
and the returned token verifies under the secret to claims holding the
same email and the supplied-or-default role. -/
theorem register_success_spec (secret : String) (now now2 : Nat) (db : DB)
    (ctr : Nat) (b : RegisterBody) (em pw nm rl : String)
    (hem : b.email = some em) (hpw : b.password = some pw) (hnm : b.name = some nm)
    (hem1 : em ≠ "") (hpw1 : pw ≠ "") (hnm1 : nm ≠ "")
    (hrl : rl = if strTruthy b.role then b.role.getD "" else "user")
    (hnew : queryEqualTo db ["users"] "email" em = [])
    (hs : tokenSafe secret) (hesafe : tokenSafe em) (hrsafe : tokenSafe rl)
    (hnow2 : now2 < now + 86400) :
    (register secret now db ctr b).1
      = ⟨200, .obj [("success", .bool true),
          ("token", .str (signToken secret ⟨pushKey ctr, em, some rl⟩ now)),
          ("user", .obj [("id", .str (pushKey ctr)), ("email", .str em),
            ("name", .str nm), ("role", .str rl)])]⟩ ∧
    dbGet (register secret now db ctr b).2.1 ["users", pushKey ctr, "email"]
      = some (.str em) ∧
    dbGet (register secret now db ctr b).2.1 ["users", pushKey ctr, "password"]
      = some (.str pw) ∧
    dbGet (register secret now db ctr b).2.1 ["users", pushKey ctr, "name"]
      = some (.str nm) ∧
    dbGet (register secret now db ctr b).2.1 ["users", pushKey ctr, "role"]
      = some (.str rl) ∧
    dbGet (register secret now db ctr b).2.1 ["users", pushKey ctr, "createdAt"]
      = some (.str (isoString now)) ∧
    (register secret now db ctr b).2.2 = ctr + 1 ∧
    jwtVerify secret now2 (.str (signToken secret ⟨pushKey ctr, em, some rl⟩ now))
      = some ⟨pushKey ctr, em, some rl⟩ := by
  have hreg : register secret now db ctr b
      = (⟨200, .obj [("success", .bool true),
          ("token", .str (signToken secret ⟨pushKey ctr, em, some rl⟩ now)),
          ("user", .obj [("id", .str (pushKey ctr)), ("email", .str em),
            ("name", .str nm), ("role", .str rl)])]⟩,
         setAt db (["users"] ++ [pushKey ctr]) (.obj
           [("email", .str em), ("password", .str pw), ("name", .str nm),
            ("role", .str rl), ("createdAt", .str (isoString now))]),
         ctr + 1) := by
    unfold register
    rw [hem, hpw, hnm,
      if_neg (by
        rw [strTruthy_some hem1, strTruthy_some hpw1, strTruthy_some hnm1]
        decide)]
    simp only [Option.getD_some]
    rw [if_neg (by rw [hnew]; decide), ← hrl]
    rfl
  have hset : setAt db (["users"] ++ [pushKey ctr]) (.obj
        [("email", .str em), ("password", .str pw), ("name", .str nm),
         ("role", .str rl), ("createdAt", .str (isoString now))])
      = removeAt db (["users"] ++ [pushKey ctr])
        ++ [((["users"] ++ [pushKey ctr]) ++ ["email"], .str em),
            ((["users"] ++ [pushKey ctr]) ++ ["password"], .str pw),
            ((["users"] ++ [pushKey ctr]) ++ ["name"], .str nm),
            ((["users"] ++ [pushKey ctr]) ++ ["role"], .str rl),
            ((["users"] ++ [pushKey ctr]) ++ ["createdAt"], .str (isoString now))] := rfl
  have hget : ∀ f : String, dbGet (register secret now db ctr b).2.1
      ((["users"] ++ [pushKey ctr]) ++ [f])
      = dbGet [((["users"] ++ [pushKey ctr]) ++ ["email"], JVal.str em),
            ((["users"] ++ [pushKey ctr]) ++ ["password"], JVal.str pw),
            ((["users"] ++ [pushKey ctr]) ++ ["name"], JVal.str nm),
            ((["users"] ++ [pushKey ctr]) ++ ["role"], JVal.str rl),
            ((["users"] ++ [pushKey ctr]) ++ ["createdAt"], JVal.str (isoString now))]
          ((["users"] ++ [pushKey ctr]) ++ [f]) := by
    intro f
    rw [hreg]
    show dbGet (setAt db (["users"] ++ [pushKey ctr]) _) _ = _
    rw [hset, dbGet_append,
      dbGet_removeAt_of_prefix db _ _ ⟨[f], rfl⟩, Option.none_or]
  refine ⟨by rw [hreg], ?_, ?_, ?_, ?_, ?_, by rw [hreg],
    jwtVerify_signToken secret ⟨pushKey ctr, em, some rl⟩ now now2 hs
      (tokenSafe_pushKey ctr) hesafe hrsafe hnow2⟩
  · show dbGet (register secret now db ctr b).2.1
      ((["users"] ++ [pushKey ctr]) ++ ["email"]) = some (.str em)
    rw [hget "email"]
    exact dbGet_cons_self _ _
  · show dbGet (register secret now db ctr b).2.1
      ((["users"] ++ [pushKey ctr]) ++ ["password"]) = some (.str pw)
    rw [hget "password",
      dbGet_cons_ne _ _ _ (path_append_singleton_ne _ (by decide))]
    exact dbGet_cons_self _ _
  · show dbGet (register secret now db ctr b).2.1
      ((["users"] ++ [pushKey ctr]) ++ ["name"]) = some (.str nm)
    rw [hget "name",
      dbGet_cons_ne _ _ _ (path_append_singleton_ne _ (by decide)),
      dbGet_cons_ne _ _ _ (path_append_singleton_ne _ (by decide))]
    exact dbGet_cons_self _ _
  · show dbGet (register secret now db ctr b).2.1
      ((["users"] ++ [pushKey ctr]) ++ ["role"]) = some (.str rl)
    rw [hget "role",
      dbGet_cons_ne _ _ _ (path_append_singleton_ne _ (by decide)),
      dbGet_cons_ne _ _ _ (path_append_singleton_ne _ (by decide)),
      dbGet_cons_ne _ _ _ (path_append_singleton_ne _ (by decide))]
    exact dbGet_cons_self _ _
  · show dbGet (register secret now db ctr b).2.1
      ((["users"] ++ [pushKey ctr]) ++ ["createdAt"]) = some (.str (isoString now))
    rw [hget "createdAt",
      dbGet_cons_ne _ _ _ (path_append_singleton_ne _ (by decide)),
      dbGet_cons_ne _ _ _ (path_append_singleton_ne _ (by decide)),
      dbGet_cons_ne _ _ _ (path_append_singleton_ne _ (by decide)),
      dbGet_cons_ne _ _ _ (path_append_singleton_ne _ (by decide))]
    exact dbGet_cons_self _ _

theorem register_success_spec_witness :
    (register "sec" 5 [] 0 ⟨some "b@x", some "q", some "Bo", none⟩).1
      = ⟨200, .obj [("success", .bool true),
          ("token", .str (signToken "sec" ⟨pushKey 0, "b@x", some "user"⟩ 5)),
          ("user", .obj [("id", .str (pushKey 0)), ("email", .str "b@x"),
            ("name", .str "Bo"), ("role", .str "user")])]⟩ ∧
    dbGet (register "sec" 5 [] 0 ⟨some "b@x", some "q", some "Bo", none⟩).2.1
      ["users", pushKey 0, "email"] = some (.str "b@x") ∧
    (register "sec" 5 [] 0 ⟨some "b@x", some "q", some "Bo", none⟩).2.2 = 1 ∧
    jwtVerify "sec" 7 (.str (signToken "sec" ⟨pushKey 0, "b@x", some "user"⟩ 5))
      = some ⟨pushKey 0, "b@x", some "user"⟩ := by
  have h := register_success_spec "sec" 5 7 [] 0 ⟨some "b@x", some "q", some "Bo", none⟩
    "b@x" "q" "Bo" "user" rfl rfl rfl (by decide) (by decide) (by decide) rfl
    (by decide) (by decide) (by decide) (by decide) (by decide)
  exact ⟨h.1, h.2.1, h.2.2.2.2.2.2.1, h.2.2.2.2.2.2.2⟩

/-- C8 counterexample: the older minimal POST /api/save in
`terait-backend/api/index.js` (lines 32-41) answers 201 with only a
message, even when both fields are present: its response has no
`success` and no `data` field and its status is not 200, against the
claimed validate-then-`success, message, data` behaviour. -/
theorem save_shape_counterexample :
    (saveDataOld [] 0 "tickets" (.str "x")).1.status = 201 ∧
    jGet (saveDataOld [] 0 "tickets" (.str "x")).1.body "success" = none ∧
    jGet (saveDataOld [] 0 "tickets" (.str "x")).1.body "data" = none ∧
    (saveDataOld [] 0 "tickets" (.str "x")).1.status ≠ 200 :=
  ⟨rfl, rfl, rfl, by decide⟩

/-- C8 (amended): the current POST /api/save validates both fields — a
missing `path` or `data` gives 400 `Path and data required` — and with
both present it pushes the data under a store-generated key beneath
the slash-split path and answers success true, a message naming the
path, and the data echoed back; the older minimal variant answers a
bare 201 message with no validation of its own. -/
theorem save_spec_amended (db : DB) (ctr : Nat) (b : SaveBody) (p : String) (v : JVal) :
    ((b.path = none ∨ b.data = none) →
      saveData db ctr b
        = (⟨400, .obj [("error", .str "Path and data required")]⟩, db, ctr)) ∧
    (b.path = some p → b.data = some v → p ≠ "" → jsTruthy (some v) = true →
      (saveData db ctr b).1 = ⟨200, .obj [("success", .bool true),
          ("message", .str ("Data saved to " ++ p)), ("data", v)]⟩ ∧
      subtreeEntries (saveData db ctr b).2.1 (splitChar '/' p ++ [pushKey ctr])
        = flattenRel v ∧
      (saveData db ctr b).2.2 = ctr + 1) ∧
    (saveDataOld db ctr p v).1 = ⟨201, .obj [("message", .str "Saved successfully")]⟩ := by
  refine ⟨?_, ?_, rfl⟩
  · intro hmiss
    unfold saveData
    rcases hmiss with h | h
    · rw [h]
      rfl
    · rw [h]
      cases hbp : strTruthy b.path
      · rfl
      · rfl
  · intro hbp hbv hp1 hv1
    have hsave : saveData db ctr b
        = (⟨200, .obj [("success", .bool true),
            ("message", .str ("Data saved to " ++ p)), ("data", v)]⟩,
           setAt db (splitChar '/' p ++ [pushKey ctr]) v, ctr + 1) := by
      unfold saveData
      rw [hbp, hbv, if_neg (by rw [strTruthy_some hp1, hv1]; decide)]
      simp only [Option.getD_some]
    refine ⟨by rw [hsave], ?_, by rw [hsave]⟩
    rw [hsave]
    exact subtree_setAt_self db _ v

theorem save_spec_amended_witness :
    (saveData [] 0 ⟨none, some (.str "x")⟩
      = (⟨400, .obj [("error", .str "Path and data required")]⟩, [], 0)) ∧
    (saveData [] 0 ⟨some "a/b", some (.obj [("x", .str "1")])⟩).1
      = ⟨200, .obj [("success", .bool true),
          ("message", .str ("Data saved to " ++ "a/b")),
          ("data", .obj [("x", .str "1")])]⟩ ∧
    subtreeEntries (saveData [] 0 ⟨some "a/b", some (.obj [("x", .str "1")])⟩).2.1
      (splitChar '/' "a/b" ++ [pushKey 0]) = flattenRel (.obj [("x", .str "1")]) ∧
    (saveDataOld [] 0 "a/b" (.obj [("x", .str "1")])).1
      = ⟨201, .obj [("message", .str "Saved successfully")]⟩ := by
  have h1 := (save_spec_amended [] 0 ⟨none, some (.str "x")⟩ "" (.str "x")).1 (Or.inl rfl)
  have h := save_spec_amended [] 0 ⟨some "a/b", some (.obj [("x", .str "1")])⟩
    "a/b" (.obj [("x", .str "1")])
  have h2 := h.2.1 rfl rfl (by decide) (by decide)
  exact ⟨h1, h2.1, h2.2.1, h.2.2⟩

/-- C10 counterexample: with exactly one stored user matching, the two
login implementations do not produce the same response: the older one
carries the whole key array as `user.id` where the current one carries
the key string, so the responses differ. -/
theorem login_variants_counterexample :
    userIdOf (login "sec" 5 loginDb ⟨some "a@x", some "pw"⟩) = some (.str "u1") ∧
    userIdOf (loginOld "sec" 5 loginDb ⟨some "a@x", some "pw"⟩)
      = some (.arr [.str "u1"]) ∧
    login "sec" 5 loginDb ⟨some "a@x", some "pw"⟩
      ≠ loginOld "sec" 5 loginDb ⟨some "a@x", some "pw"⟩ := by
  refine ⟨rfl, rfl, fun h => ?_⟩
  have h2 := congrArg userIdOf h
  rw [show userIdOf (login "sec" 5 loginDb ⟨some "a@x", some "pw"⟩)
      = some (.str "u1") from rfl,
    show userIdOf (loginOld "sec" 5 loginDb ⟨some "a@x", some "pw"⟩)
      = some (.arr [.str "u1"]) from rfl] at h2
  injection h2 with h3
  exact JVal.noConfusion h3

/-- C10 (amended): when exactly one stored user matches the email, both
login variants look up the same record (the singleton key array
coerces to its sole key) and agree on the success/failure outcome and
on the email, name and role fields of the response; they differ in the
`user.id` field and in the `userId` claim signed into the token — the
key array against the key string. -/
theorem login_variants_amended (secret : String) (now : Nat) (db : DB) (b : LoginBody)
    (em pw k nm rl : String)
    (hem : b.email = some em) (hpw : b.password = some pw)
    (hem1 : em ≠ "") (hpw1 : pw ≠ "")
    (hq : queryEqualTo db ["users"] "email" em = [k]) :
    (leafEqStr (dbGet db ["users", k, "password"]) pw = false →
      login secret now db b = ⟨401, .obj [("error", .str "Invalid credentials")]⟩ ∧
      loginOld secret now db b = ⟨401, .obj [("error", .str "Invalid credentials")]⟩) ∧
    (leafEqStr (dbGet db ["users", k, "password"]) pw = true →
      dbGet db ["users", k, "name"] = some (.str nm) →
      dbGet db ["users", k, "role"] = some (.str rl) →
      login secret now db b
        = ⟨200, .obj [("success", .bool true),
            ("token", .str (signToken secret ⟨k, em, some rl⟩ now)),
            ("user", .obj [("id", .str k), ("email", .str em),
              ("name", .str nm), ("role", .str rl)])]⟩ ∧
      loginOld secret now db b
        = ⟨200, .obj [("success", .bool true),
            ("token", .str (signToken secret ⟨keyArrClaim [k], em, some rl⟩ now)),
            ("user", .obj [("id", .arr [.str k]), ("email", .str em),
              ("name", .str nm), ("role", .str rl)])]⟩) := by
  have hemleaf : dbGet db ["users", k, "email"] = some (.str em) :=
    queryEqualTo_mem (k := k) (hq ▸ List.mem_singleton.mpr rfl)
  have hsing : String.intercalate "," [k] = k := rfl
  have hcont : (([k] : List String).contains (String.intercalate "," [k])) = true := by
    rw [hsing]
    simp
  constructor
  · intro hbad
    constructor
    · unfold login
      rw [hem, hpw, if_neg (by rw [strTruthy_some hem1, strTruthy_some hpw1]; decide)]
      simp only [Option.getD_some]
      rw [hq]
      show (if (!leafEqStr (dbGet db ["users", k, "password"]) pw) = true
          then (⟨401, .obj [("error", .str "Invalid credentials")]⟩ : ApiResponse)
          else _) = _
      rw [hbad]
      rfl
    · unfold loginOld
      rw [hem, hpw, if_neg (by rw [strTruthy_some hem1, strTruthy_some hpw1]; decide)]
      simp only [Option.getD_some]
      rw [hq]
      show (if (!(([k] : List String).contains (String.intercalate "," [k]))) = true
          then (⟨500, .obj [("error", .str "Login failed")]⟩ : ApiResponse)
          else if (!leafEqStr
              (dbGet db ["users", String.intercalate "," [k], "password"]) pw) = true
          then (⟨401, .obj [("error", .str "Invalid credentials")]⟩ : ApiResponse)
          else _) = _
      rw [hcont, hsing, hbad]
      rfl
  · intro hgood hnm hrl
    constructor
    · unfold login
      rw [hem, hpw, if_neg (by rw [strTruthy_some hem1, strTruthy_some hpw1]; decide)]
      simp only [Option.getD_some]
      rw [hq]
      show (if (!leafEqStr (dbGet db ["users", k, "password"]) pw) = true
          then (⟨401, .obj [("error", .str "Invalid credentials")]⟩ : ApiResponse)
          else ⟨200, .obj [("success", .bool true),
            ("token", .str (signToken secret
              ⟨k, em, leafStr (dbGet db ["users", k, "role"])⟩ now)),
            ("user", .obj ([("id", .str k)]
              ++ optField "email" (dbGet db ["users", k, "email"])
              ++ optField "name" (dbGet db ["users", k, "name"])
              ++ optField "role" (dbGet db ["users", k, "role"])))]⟩) = _
      rw [hgood, hemleaf, hnm, hrl]
      rfl
    · unfold loginOld
      rw [hem, hpw, if_neg (by rw [strTruthy_some hem1, strTruthy_some hpw1]; decide)]
      simp only [Option.getD_some]
      rw [hq]
      show (if (!(([k] : List String).contains (String.intercalate "," [k]))) = true
          then (⟨500, .obj [("error", .str "Login failed")]⟩ : ApiResponse)
          else if (!leafEqStr
              (dbGet db ["users", String.intercalate "," [k], "password"]) pw) = true
          then (⟨401, .obj [("error", .str "Invalid credentials")]⟩ : ApiResponse)
          else ⟨200, .obj [("success", .bool true),
            ("token", .str (signToken secret ⟨keyArrClaim [k], em,
              leafStr (dbGet db ["users", String.intercalate "," [k], "role"])⟩ now)),
            ("user", .obj ([("id", .arr ([k].map .str))]
              ++ optField "email"
                (dbGet db ["users", String.intercalate "," [k], "email"])
              ++ optField "name"
                (dbGet db ["users", String.intercalate "," [k], "name"])
              ++ optField "role"
                (dbGet db ["users", String.intercalate "," [k], "role"])))]⟩) = _
      rw [hcont, hsing, hgood, hemleaf, hnm, hrl]
      rfl

theorem login_variants_amended_witness :
    login "sec" 5 loginDb ⟨some "a@x", some "bad"⟩
      = ⟨401, .obj [("error", .str "Invalid credentials")]⟩ ∧
    loginOld "sec" 5 loginDb ⟨some "a@x", some "bad"⟩
      = ⟨401, .obj [("error", .str "Invalid credentials")]⟩ ∧
    login "sec" 5 loginDb ⟨some "a@x", some "pw"⟩
      = ⟨200, .obj [("success", .bool true),
          ("token", .str (signToken "sec" ⟨"u1", "a@x", some "admin"⟩ 5)),
          ("user", .obj [("id", .str "u1"), ("email", .str "a@x"),
            ("name", .str "Ana"), ("role", .str "admin")])]⟩ ∧
    loginOld "sec" 5 loginDb ⟨some "a@x", some "pw"⟩
      = ⟨200, .obj [("success", .bool true),
          ("token", .str (signToken "sec" ⟨keyArrClaim ["u1"], "a@x", some "admin"⟩ 5)),
          ("user", .obj [("id", .arr [.str "u1"]), ("email", .str "a@x"),
            ("name", .str "Ana"), ("role", .str "admin")])]⟩ := by
  have hb := (login_variants_amended "sec" 5 loginDb ⟨some "a@x", some "bad"⟩
    "a@x" "bad" "u1" "" "" rfl rfl (by decide) (by decide) (by decide)).1 (by decide)
  have hg := (login_variants_amended "sec" 5 loginDb ⟨some "a@x", some "pw"⟩
    "a@x" "pw" "u1" "Ana" "admin" rfl rfl (by decide) (by decide) (by decide)).2
    (by decide) rfl rfl
  exact ⟨hb.1, hb.2, hg.1, hg.2⟩

end Terait
